import Mathlib

/-!
Verification development for the rpi-epaper driver (src/main.rs, src/cmd.rs,
src/draw.rs): a shallow embedding of the palette, the Floyd-Steinberg
dithering pass, the command protocol engine and the transport interface,
together with theorems settling the frozen claims about the program.

Modelling conventions:
* Rust f32 channel values are embedded as exact rationals (all palette
  reference values and all arithmetic on them are small integers or exact
  fractions k/16, so the embedding agrees with the source on every value the
  claims touch).
* u8/u16/usize arithmetic is embedded as Nat; every quantity involved is far
  below any overflow boundary (color codes are at most 7, packed bytes at most
  0xEF, flat indices at most 600*448).
* The fallible SPI transport is embedded as a trace-producing state monad over
  Except: a Dev says which numbered send call succeeds, the St carries the call
  counter and the ordered event trace, and the Rust question-mark operator is
  Except bind (an error propagates unchanged, exactly like spi::Result).
* Rust panics (the dimension assert, out-of-bounds indexing) are embedded as
  Except.error / Option.none respectively.
-/

namespace Epaper

/-- Panel width in pixels (main.rs SCREEN_WIDTH). -/
def SCREEN_WIDTH : ℕ := 600

/-- Panel height in pixels (main.rs SCREEN_HEIGHT). -/
def SCREEN_HEIGHT : ℕ := 448

/-- The palette (draw.rs Color), a fieldless enum with repr(u8) discriminants. -/
inductive Color
  | Black
  | White
  | Green
  | Blue
  | Red
  | Yellow
  | Orange
  | Clean
deriving DecidableEq, Repr

/-- The repr(u8) discriminant of each variant (the `Color as u8` cast). -/
def Color.code : Color → ℕ
  | .Black => 0x00
  | .White => 0x01
  | .Green => 0x02
  | .Blue => 0x03
  | .Red => 0x04
  | .Yellow => 0x05
  | .Orange => 0x06
  | .Clean => 0x07

/-- draw.rs Color::all, in its exact enumeration order. -/
def Color.all : List Color :=
  [.Clean, .Black, .White, .Green, .Blue, .Red, .Yellow, .Orange]

/-- An RGB sample (main.rs Rgb): three f32 channels, embedded as rationals. -/
structure Rgb where
  r : ℚ
  g : ℚ
  b : ℚ
deriving DecidableEq

/-- draw.rs Color::as_rgb: the LOOKUP table, indexed by discriminant. -/
def Color.as_rgb : Color → Rgb
  | .Black => ⟨0, 0, 0⟩
  | .White => ⟨255, 255, 255⟩
  | .Green => ⟨0, 255, 0⟩
  | .Blue => ⟨0, 0, 255⟩
  | .Red => ⟨255, 0, 0⟩
  | .Yellow => ⟨255, 255, 0⟩
  | .Orange => ⟨255, 170, 0⟩
  | .Clean => ⟨180, 180, 180⟩

/-- The squared-distance expression computed inside Color::closest's closure
(the local `ed = dr*dr + dg*dg + db*db`). -/
def Color.ed (pixel : Rgb) (c : Color) : ℚ :=
  let q := c.as_rgb
  let dr := pixel.r - q.r
  let dg := pixel.g - q.g
  let db := pixel.b - q.b
  dr * dr + dg * dg + db * db

/-- draw.rs Color::closest: map every palette entry to its squared distance and
take min_by over the comparison of distances. Rust's Iterator::min_by keeps the
first of equally-minimal elements, i.e. it folds keeping the accumulator
whenever its key is less than or equal to the candidate's; the empty-list arm
mirrors the unreachable None of .unwrap() on the never-empty Color::all. -/
def Color.closest (pixel : Rgb) : Color :=
  match Color.all with
  | [] => Color.Clean
  | c :: cs =>
    cs.foldl (fun acc c2 => if Color.ed pixel acc ≤ Color.ed pixel c2 then acc else c2) c

/-- Component-wise addition of RGB samples (impl AddAssign for Rgb). -/
instance : Add Rgb := ⟨fun a c => ⟨a.r + c.r, a.g + c.g, a.b + c.b⟩⟩

/-- Component-wise subtraction of RGB samples (impl Sub for Rgb). -/
instance : Sub Rgb := ⟨fun a c => ⟨a.r - c.r, a.g - c.g, a.b - c.b⟩⟩

/-- The zero sample, used only to state that a skipped diffusion adds nothing. -/
instance : Zero Rgb := ⟨⟨0, 0, 0⟩⟩

theorem Rgb.add_def (a c : Rgb) : a + c = ⟨a.r + c.r, a.g + c.g, a.b + c.b⟩ := rfl

theorem Rgb.sub_def (a c : Rgb) : a - c = ⟨a.r - c.r, a.g - c.g, a.b - c.b⟩ := rfl

theorem Rgb.add_zero (a : Rgb) : a + 0 = a := by
  show Rgb.mk (a.r + 0) (a.g + 0) (a.b + 0) = a
  simp

/-- draw.rs SolidColor: a constant-color pixel source (tuple struct field 0). -/
structure SolidColor where
  c0 : Color

/-- SolidColor's Drawable impl: every coordinate yields the stored color. -/
def SolidColor.get_pixel (sc : SolidColor) (_x _y : ℕ) : Color := sc.c0

/-- draw.rs PaperImage: a fully materialized frame buffer, one Color per panel
pixel, stored row-major (index x + y * SCREEN_WIDTH). -/
structure PaperImage where
  data : Fin (SCREEN_HEIGHT * SCREEN_WIDTH) → Color

/-- PaperImage's Drawable impl: reads data[x + y * SCREEN_WIDTH] with no check
of x against the width; Rust's panicking index is embedded as Option, none
exactly when the flat index is out of bounds of the backing array. -/
def PaperImage.get_pixel (img : PaperImage) (x y : ℕ) : Option Color :=
  if h : x + y * SCREEN_WIDTH < SCREEN_HEIGHT * SCREEN_WIDTH then
    some (img.data ⟨x + y * SCREEN_WIDTH, h⟩)
  else
    none

/-- cmd.rs to_bit: a flag as a single set bit. -/
def to_bit (f : Bool) (bit : ℕ) : ℕ :=
  if f then 1 <<< bit else 0

/-- Transport-level events, in the order the hardware would see them. cmd and
data are the SpiDevice send_cmd / send_data calls; waitHigh / waitLow are the
busy-line polls; resetHigh / resetLow are reset-pin writes; sleepMs is a timed
delay; checkDims marks the dimension assert in main (not a hardware event). -/
inductive Ev
  | cmd (b : ℕ)
  | data (bs : List ℕ)
  | waitHigh
  | waitLow
  | resetHigh
  | resetLow
  | sleepMs (ms : ℕ)
  | checkDims
deriving DecidableEq, Repr

/-- A transport device model: sendOk says whether the n-th fallible send call
(cmd and data calls counted together, from 0) succeeds. -/
structure Dev where
  sendOk : ℕ → Bool

/-- Transport state: the number of send calls attempted so far and the ordered
trace of events that physically happened. -/
structure St where
  n : ℕ
  tr : List Ev
deriving DecidableEq, Repr

/-- The all-zero starting state. -/
def st0 : St := ⟨0, []⟩

/-- A device on which every send call succeeds. -/
def devOk : Dev := ⟨fun _ => true⟩

/-- A device on which every send call fails (so the first call fails). -/
def devFail0 : Dev := ⟨fun _ => false⟩

/-- SpiDevice::send_cmd: one fallible call emitting one command byte. On
failure (spi write error) the byte is not transmitted and the error is
returned, carrying the state at the point of failure. -/
def sendCmd (dev : Dev) (b : ℕ) (s : St) : Except St St :=
  if dev.sendOk s.n = true then .ok ⟨s.n + 1, s.tr ++ [Ev.cmd b]⟩
  else .error ⟨s.n + 1, s.tr⟩

/-- SpiDevice::send_data: one fallible call emitting one data-byte burst. -/
def sendData (dev : Dev) (bs : List ℕ) (s : St) : Except St St :=
  if dev.sendOk s.n = true then .ok ⟨s.n + 1, s.tr ++ [Ev.data bs]⟩
  else .error ⟨s.n + 1, s.tr⟩

/-- Append an infallible event (wait, sleep, reset-pin write, check marker). -/
def noteEv (s : St) (e : Ev) : St := ⟨s.n, s.tr ++ [e]⟩

/-- cmd.rs PanelSetting: four independently toggleable flag bits. -/
structure PanelSetting where
  ud : Bool
  shl : Bool
  shd_n : Bool
  rst_n : Bool

/-- PanelSetting::default: all four flags enabled. -/
def PanelSetting.default : PanelSetting := ⟨true, true, true, true⟩

/-- PanelSetting::send: command 0x00, then the flag byte (three fixed high
bits 0b111 plus the flags in bits 3..0) and the fixed trailing byte 0x08. -/
def PanelSetting.send (ps : PanelSetting) (dev : Dev) (s : St) : Except St St := do
  let s ← sendCmd dev 0x00 s
  let d := 0b11100000 ||| to_bit ps.ud 3 ||| to_bit ps.shl 2 |||
      to_bit ps.shd_n 1 ||| to_bit ps.rst_n 0
  sendData dev [d, 0x08] s

/-- InternalPower::send: command 0x01 with four fixed bytes. -/
def InternalPower.send (dev : Dev) (s : St) : Except St St := do
  let s ← sendCmd dev 0x01 s
  sendData dev [0x37, 0x00, 0x23, 0x23] s

/-- PowerOffSequence::send: command 0x03 with one fixed byte. -/
def PowerOffSequence.send (dev : Dev) (s : St) : Except St St := do
  let s ← sendCmd dev 0x03 s
  sendData dev [0x00] s

/-- BoosterSoftStart::send: command 0x06 with three fixed bytes. -/
def BoosterSoftStart.send (dev : Dev) (s : St) : Except St St := do
  let s ← sendCmd dev 0x06 s
  sendData dev [0xC7, 0xC7, 0x1D] s

/-- PLLControl::send: command 0x30 with one fixed byte. -/
def PLLControl.send (dev : Dev) (s : St) : Except St St := do
  let s ← sendCmd dev 0x30 s
  sendData dev [0x3C] s

/-- TempSensor::send: command 0x41 selecting the internal sensor. -/
def TempSensor.send (dev : Dev) (s : St) : Except St St := do
  let s ← sendCmd dev 0x41 s
  sendData dev [0x00] s

/-- VCOMDataInterval::send: command 0x50; data byte is the border color code
shifted into the top three bits, OR a fixed control bit and interval field. -/
def VCOMDataInterval.send (border_output : Color) (dev : Dev) (s : St) : Except St St := do
  let s ← sendCmd dev 0x50 s
  let d := (border_output.code <<< 5) ||| (1 <<< 4) ||| 0b0111
  sendData dev [d] s

/-- Unknown6022::send: vendor-undocumented command 0x60 with byte 0x22. -/
def Unknown6022.send (dev : Dev) (s : St) : Except St St := do
  let s ← sendCmd dev 0x60 s
  sendData dev [0x22] s

/-- SetResolution::send: command 0x61 with 600 and 448 as big-endian pairs. -/
def SetResolution.send (dev : Dev) (s : St) : Except St St := do
  let s ← sendCmd dev 0x61 s
  sendData dev [0x02, 0x58, 0x01, 0xC0] s

/-- UnknownE3AA::send: vendor-undocumented command 0xE3 with byte 0xAA. -/
def UnknownE3AA.send (dev : Dev) (s : St) : Except St St := do
  let s ← sendCmd dev 0xE3 s
  sendData dev [0xAA] s

/-- PowerOn::send: command 0x04, then block until the busy line reads high. -/
def PowerOn.send (dev : Dev) (s : St) : Except St St := do
  let s ← sendCmd dev 0x04 s
  pure (noteEv s Ev.waitHigh)

/-- DisplayRefresh::send: command 0x12, then block until busy reads high. -/
def DisplayRefresh.send (dev : Dev) (s : St) : Except St St := do
  let s ← sendCmd dev 0x12 s
  pure (noteEv s Ev.waitHigh)

/-- PowerOff::send: command 0x02, then block until busy reads low. -/
def PowerOff.send (dev : Dev) (s : St) : Except St St := do
  let s ← sendCmd dev 0x02 s
  pure (noteEv s Ev.waitLow)

/-- Init::send (cmd.rs): the full initialization sequence, each step
propagating a transport failure via the question-mark operator, with a 100ms
sleep before the final VCOM command. -/
def Init.send (dev : Dev) (s : St) : Except St St := do
  let s ← PanelSetting.default.send dev s
  let s ← InternalPower.send dev s
  let s ← PowerOffSequence.send dev s
  let s ← BoosterSoftStart.send dev s
  let s ← PLLControl.send dev s
  let s ← TempSensor.send dev s
  let s ← VCOMDataInterval.send Color.Black dev s
  let s ← Unknown6022.send dev s
  let s ← SetResolution.send dev s
  let s ← UnknownE3AA.send dev s
  let s := noteEv s (Ev.sleepMs 100)
  VCOMDataInterval.send Color.Black dev s

/-- The byte packed for one pair of horizontally adjacent pixels inside
Draw::send: high nibble from the even-x pixel, low nibble from the odd one. -/
def pxByte (g : ℕ → ℕ → Color) (x y : ℕ) : ℕ :=
  ((g (x * 2) y).code <<< 4) ||| (g (x * 2 + 1) y).code

/-- Draw::send (cmd.rs): resolution setting, command 0x10 followed by one
data call per two horizontal pixels in row-major order, then power on (busy
high), display refresh (busy high), power off (busy low) and a 200ms sleep.
The drawable is its get_pixel function. -/
def Draw.send (g : ℕ → ℕ → Color) (dev : Dev) (s : St) : Except St St := do
  let s ← SetResolution.send dev s
  let s ← sendCmd dev 0x10 s
  let s ← (List.range SCREEN_HEIGHT).foldlM (fun s y =>
      (List.range (SCREEN_WIDTH / 2)).foldlM (fun s x =>
        sendData dev [pxByte g x y] s) s) s
  let s ← PowerOn.send dev s
  let s ← DisplayRefresh.send dev s
  let s ← PowerOff.send dev s
  pure (noteEv s (Ev.sleepMs 200))

/-- EPaper::reset (main.rs): reset pin high, 600ms, low, 2ms, high, 200ms. -/
def EPaper.reset (s : St) : St :=
  noteEv (noteEv (noteEv (noteEv (noteEv (noteEv s Ev.resetHigh)
      (Ev.sleepMs 600)) Ev.resetLow) (Ev.sleepMs 2)) Ev.resetHigh) (Ev.sleepMs 200)

/-- EPaper::init (main.rs): constructs the handle and immediately runs the
reset-pin sequence. -/
def EPaper.init (s : St) : St := EPaper.reset s

/-- Floyd-Steinberg error scaling (the local diffuse_error in main.rs):
weight is out of 16. -/
def diffuse_error (error : Rgb) (weight : ℚ) : Rgb :=
  ⟨error.r * weight / 16, error.g * weight / 16, error.b * weight / 16⟩

/-- In-place += at one flat index of the working buffer (buffers are embedded
as functions from flat index to sample; every source access is in bounds). -/
def addAt (buf : ℕ → Rgb) (i : ℕ) (v : Rgb) : ℕ → Rgb :=
  Function.update buf i (buf i + v)

/-- The body of the dithering double loop at pixel (x, y) (main.rs
floyd_steinberg_dither): quantize the working value, store it in the output
buffer, and diffuse the error into the four forward neighbors, each add
guarded by the source's bounds checks. State is (working buffer, output). -/
def ditherPixel (width height : ℕ) (x y : ℕ) (st : (ℕ → Rgb) × (ℕ → Color)) :
    (ℕ → Rgb) × (ℕ → Color) :=
  let input := st.1
  let oldpixel := input (x + y * width)
  let newpixel := Color.closest oldpixel
  let out := Function.update st.2 (x + y * width) newpixel
  let error := oldpixel - newpixel.as_rgb
  let input := if x + 1 < width then
      addAt input ((x + 1) + y * width) (diffuse_error error 7) else input
  let input := if x + 1 < width ∧ y + 1 < height then
      addAt input ((x + 1) + (y + 1) * width) (diffuse_error error 1) else input
  let input := if x ≠ 0 ∧ y + 1 < height then
      addAt input ((x - 1) + (y + 1) * width) (diffuse_error error 3) else input
  let input := if y + 1 < height then
      addAt input (x + (y + 1) * width) (diffuse_error error 5) else input
  (input, out)

/-- The dithering double loop: y outer over rows, x inner over columns, i.e.
row-major, left-to-right, top-to-bottom, starting from the source samples and
an all-Clean output buffer. -/
def ditherLoop (width height : ℕ) (input : ℕ → Rgb) : (ℕ → Rgb) × (ℕ → Color) :=
  (List.range height).foldl (fun st y =>
    (List.range width).foldl (fun st x => ditherPixel width height x y st) st)
    (input, fun _ => Color.Clean)

/-- main.rs floyd_steinberg_dither at the panel's fixed resolution: the input
buffer is filled row-major from the bitmap, and the resulting PaperImage is
read back through the same row-major flat indexing. -/
def floyd_steinberg_dither (img : ℕ → ℕ → Rgb) : ℕ → ℕ → Color :=
  fun x y =>
    (ditherLoop SCREEN_WIDTH SCREEN_HEIGHT
        (fun i => img (i % SCREEN_WIDTH) (i / SCREEN_WIDTH))).2
      (x + y * SCREEN_WIDTH)

/-- main (main.rs): construct the EPaper handle (which runs the reset-pin
sequence), decode the bundled bitmap (external, represented by its dimensions
and pixel function), assert the dimensions equal the panel resolution (panic
embedded as Except.error), reset again, busy-wait, run Init, then Draw with
either the solid Clean fill or the dithered image. -/
def mainRun (dev : Dev) (clean : Bool) (imgW imgH : ℕ) (img : ℕ → ℕ → Rgb) :
    Except St St := do
  let s := EPaper.init st0
  let s := noteEv s Ev.checkDims
  let s ← if imgW = SCREEN_WIDTH ∧ imgH = SCREEN_HEIGHT then Except.ok s
      else Except.error s
  let s := EPaper.reset s
  let s := noteEv s Ev.waitHigh
  let s ← Init.send dev s
  let s ← if clean then Draw.send (SolidColor.get_pixel ⟨Color.Clean⟩) dev s
      else Draw.send (floyd_steinberg_dither img) dev s
  pure s

/-- The event trace of a run, whether it completed or aborted. -/
def runTr : Except St St → List Ev
  | .ok s => s.tr
  | .error s => s.tr

/-- Is this event a byte transmission (a command or data send)? -/
def isSend : Ev → Bool
  | .cmd _ => true
  | .data _ => true
  | _ => false

/-- Is this event a hardware interaction in the sense of the spec: a command
byte, data bytes, a busy-wait, or a reset-pin write? -/
def isHw : Ev → Bool
  | .cmd _ => true
  | .data _ => true
  | .waitHigh => true
  | .waitLow => true
  | .resetHigh => true
  | .resetLow => true
  | .sleepMs _ => false
  | .checkDims => false

/-- Is this event a command-byte transmission? -/
def isCmdEv : Ev → Bool
  | .cmd _ => true
  | _ => false

/-- The bytes carried by a data event (none for other events). -/
def evBytes : Ev → List ℕ
  | .data bs => bs
  | _ => []

/-- The portion of a trace strictly before the dimension-check marker. -/
def beforeCheck (tr : List Ev) : List Ev :=
  tr.takeWhile (fun e => !(e == Ev.checkDims))

/-- The data payload of the Data-transfer command in a trace: the bytes of the
contiguous data events that follow the first cmd 0x10 event, up to the next
command byte. -/
def xferPayload (tr : List Ev) : List ℕ :=
  ((((tr.dropWhile (fun e => !(e == Ev.cmd 0x10))).drop 1).takeWhile
      (fun e => !(isCmdEv e))).map evBytes).flatten

/-- The trace Init::send appends on a failure-free device. -/
def initEvents : List Ev :=
  [Ev.cmd 0x00, Ev.data [0xEF, 0x08],
   Ev.cmd 0x01, Ev.data [0x37, 0x00, 0x23, 0x23],
   Ev.cmd 0x03, Ev.data [0x00],
   Ev.cmd 0x06, Ev.data [0xC7, 0xC7, 0x1D],
   Ev.cmd 0x30, Ev.data [0x3C],
   Ev.cmd 0x41, Ev.data [0x00],
   Ev.cmd 0x50, Ev.data [0x17],
   Ev.cmd 0x60, Ev.data [0x22],
   Ev.cmd 0x61, Ev.data [0x02, 0x58, 0x01, 0xC0],
   Ev.cmd 0xE3, Ev.data [0xAA],
   Ev.sleepMs 100,
   Ev.cmd 0x50, Ev.data [0x17]]

/-- The full-frame payload events: one data event per two horizontal pixels,
row-major over the whole resolution. -/
def payloadEvents (g : ℕ → ℕ → Color) : List Ev :=
  (List.range SCREEN_HEIGHT).flatMap (fun y =>
    (List.range (SCREEN_WIDTH / 2)).map (fun x => Ev.data [pxByte g x y]))

/-- The trace Draw::send appends on a failure-free device: resolution setting,
the 0x10 transfer with its payload, then power on / refresh / power off with
their waits and the settling sleep. -/
def drawEvents (g : ℕ → ℕ → Color) : List Ev :=
  [Ev.cmd 0x61, Ev.data [0x02, 0x58, 0x01, 0xC0], Ev.cmd 0x10] ++
    payloadEvents g ++
    [Ev.cmd 0x04, Ev.waitHigh, Ev.cmd 0x12, Ev.waitHigh,
     Ev.cmd 0x02, Ev.waitLow, Ev.sleepMs 200]

/-- Raster order: all pixel coordinates row-major, left-to-right then
top-to-bottom. -/
def rasterOrder (width height : ℕ) : List (ℕ × ℕ) :=
  (List.range height).flatMap (fun y => (List.range width).map (fun x => (x, y)))

/-- The diffusion weight the spec assigns to target coordinate (i, j) when
processing pixel (x, y) in a width-by-height buffer, written from the spec's
words: 7/16 to the right neighbor, 1/16 below-right, 3/16 below-left, 5/16
directly below, and nothing (skipped, not wrapped, not clamped) when the
target falls outside the buffer. -/
def specWeight (width height x y i j : ℕ) : ℚ :=
  if i = x + 1 ∧ j = y ∧ i < width ∧ j < height then 7
  else if i = x + 1 ∧ j = y + 1 ∧ i < width ∧ j < height then 1
  else if i + 1 = x ∧ j = y + 1 ∧ i < width ∧ j < height then 3
  else if i = x ∧ j = y + 1 ∧ i < width ∧ j < height then 5
  else 0

/-- The bytes of the full-frame payload, one per two horizontal pixels,
row-major. -/
def payloadBytes (g : ℕ → ℕ → Color) : List ℕ :=
  (List.range SCREEN_HEIGHT).flatMap (fun y =>
    (List.range (SCREEN_WIDTH / 2)).map (fun x => pxByte g x y))

/-- Init::send followed by Draw::send of the solid Clean fill on a
failure-free device, from the initial state (the clean-argument run of main
after the reset/busy preamble). -/
def initThenDrawClean : Except St St :=
  (Init.send devOk st0).bind
    (fun s => Draw.send (SolidColor.get_pixel ⟨Color.Clean⟩) devOk s)

theorem bind_ok_st (a : St) (f : St → Except St St) :
    (Except.ok a : Except St St) >>= f = f a := rfl

theorem pure_st (a : St) : (pure a : Except St St) = Except.ok a := rfl

theorem bind_error_st (a : St) (f : St → Except St St) :
    (Except.error a : Except St St) >>= f = Except.error a := rfl

theorem sendCmd_ok (dev : Dev) (b : ℕ) (s : St) (h : dev.sendOk s.n = true) :
    sendCmd dev b s = .ok ⟨s.n + 1, s.tr ++ [Ev.cmd b]⟩ := by
  simp [sendCmd, h]

theorem sendData_ok (dev : Dev) (bs : List ℕ) (s : St) (h : dev.sendOk s.n = true) :
    sendData dev bs s = .ok ⟨s.n + 1, s.tr ++ [Ev.data bs]⟩ := by
  simp [sendData, h]

theorem Init_send_ok_tr (dev : Dev) (s : St) (hdev : ∀ k, dev.sendOk k = true) :
    Init.send dev s = .ok ⟨s.n + 22, s.tr ++ initEvents⟩ := by
  simp [Init.send, PanelSetting.send, PanelSetting.default, InternalPower.send,
    PowerOffSequence.send, BoosterSoftStart.send, PLLControl.send, TempSensor.send,
    VCOMDataInterval.send, Unknown6022.send, SetResolution.send, UnknownE3AA.send,
    sendCmd_ok, sendData_ok, hdev, bind_ok_st, noteEv, initEvents, Color.code, to_bit]

theorem SetResolution_send_ok (dev : Dev) (s : St) (hdev : ∀ k, dev.sendOk k = true) :
    SetResolution.send dev s =
      .ok ⟨s.n + 2, s.tr ++ [Ev.cmd 0x61, Ev.data [0x02, 0x58, 0x01, 0xC0]]⟩ := by
  simp [SetResolution.send, sendCmd_ok, sendData_ok, hdev, bind_ok_st]

theorem PowerOn_send_ok (dev : Dev) (s : St) (hdev : ∀ k, dev.sendOk k = true) :
    PowerOn.send dev s = .ok ⟨s.n + 1, s.tr ++ [Ev.cmd 0x04, Ev.waitHigh]⟩ := by
  simp [PowerOn.send, sendCmd_ok, hdev, bind_ok_st, noteEv, pure_st]

theorem DisplayRefresh_send_ok (dev : Dev) (s : St) (hdev : ∀ k, dev.sendOk k = true) :
    DisplayRefresh.send dev s = .ok ⟨s.n + 1, s.tr ++ [Ev.cmd 0x12, Ev.waitHigh]⟩ := by
  simp [DisplayRefresh.send, sendCmd_ok, hdev, bind_ok_st, noteEv, pure_st]

theorem PowerOff_send_ok (dev : Dev) (s : St) (hdev : ∀ k, dev.sendOk k = true) :
    PowerOff.send dev s = .ok ⟨s.n + 1, s.tr ++ [Ev.cmd 0x02, Ev.waitLow]⟩ := by
  simp [PowerOff.send, sendCmd_ok, hdev, bind_ok_st, noteEv, pure_st]

theorem sendData_foldl_ok (dev : Dev) (f : ℕ → List ℕ)
    (hdev : ∀ k, dev.sendOk k = true) :
    ∀ (l : List ℕ) (s : St),
      l.foldlM (fun s x => sendData dev (f x) s) s =
        .ok ⟨s.n + l.length, s.tr ++ l.map (fun x => Ev.data (f x))⟩ := by
  intro l
  induction l with
  | nil => intro s; simp [List.foldlM_nil, pure_st]
  | cons a l ih =>
    intro s
    rw [List.foldlM_cons, sendData_ok dev (f a) s (hdev s.n), bind_ok_st, ih]
    dsimp only
    refine congrArg Except.ok ?_
    refine congrArg₂ St.mk (by simp; omega) ?_
    simp

theorem rows_foldl_ok (dev : Dev) (g : ℕ → ℕ → Color)
    (hdev : ∀ k, dev.sendOk k = true) :
    ∀ (l : List ℕ) (s : St),
      l.foldlM (fun s y => (List.range (SCREEN_WIDTH / 2)).foldlM
          (fun s x => sendData dev [pxByte g x y] s) s) s =
        .ok ⟨s.n + l.length * (SCREEN_WIDTH / 2),
          s.tr ++ l.flatMap (fun y => (List.range (SCREEN_WIDTH / 2)).map
            (fun x => Ev.data [pxByte g x y]))⟩ := by
  intro l
  induction l with
  | nil => intro s; simp [List.foldlM_nil, pure_st]
  | cons a l ih =>
    intro s
    rw [List.foldlM_cons,
      sendData_foldl_ok dev (fun x => [pxByte g x a]) hdev (List.range (SCREEN_WIDTH / 2)) s,
      bind_ok_st, ih]
    dsimp only
    refine congrArg Except.ok ?_
    refine congrArg₂ St.mk ?_ ?_
    · simp only [List.length_range, List.length_cons]
      ring
    · simp [List.append_assoc]

theorem Draw_send_ok_tr (g : ℕ → ℕ → Color) (dev : Dev) (s : St)
    (hdev : ∀ k, dev.sendOk k = true) :
    Draw.send g dev s = .ok ⟨s.n + 134406, s.tr ++ drawEvents g⟩ := by
  simp only [Draw.send, SetResolution_send_ok dev _ hdev, bind_ok_st, sendCmd_ok, hdev,
    rows_foldl_ok dev g hdev, PowerOn_send_ok dev _ hdev, DisplayRefresh_send_ok dev _ hdev,
    PowerOff_send_ok dev _ hdev, pure_st, noteEv]
  refine congrArg Except.ok ?_
  refine congrArg₂ St.mk ?_ ?_
  · rw [List.length_range]
    show s.n + 2 + 1 + 448 * (600 / 2) + 1 + 1 + 1 = s.n + 134406
    omega
  · simp [drawEvents, payloadEvents, List.append_assoc]

theorem payload_mem {g : ℕ → ℕ → Color} {e : Ev} (h : e ∈ payloadEvents g) :
    ∃ bs, e = Ev.data bs := by
  simp only [payloadEvents, List.mem_flatMap, List.mem_map] at h
  obtain ⟨y, -, x, -, rfl⟩ := h
  exact ⟨[pxByte g x y], rfl⟩

theorem xferPayload_cons_no16 (e : Ev) (l : List Ev) (h : (e == Ev.cmd 0x10) = false) :
    xferPayload (e :: l) = xferPayload l := by
  simp [xferPayload, List.dropWhile_cons, h]

theorem xferPayload_append_no16 (l1 l2 : List Ev)
    (h : ∀ e ∈ l1, (e == Ev.cmd 0x10) = false) :
    xferPayload (l1 ++ l2) = xferPayload l2 := by
  induction l1 with
  | nil => simp
  | cons a l ih =>
    rw [List.cons_append, xferPayload_cons_no16 _ _ (h a (by simp)), ih]
    intro e he
    exact h e (by simp [he])

theorem xferPayload_at16 (l1 : List Ev) (h1 : ∀ e ∈ l1, (e == Ev.cmd 0x10) = false)
    (l2 : List Ev) (h2 : ∀ e ∈ l2, (!(isCmdEv e)) = true)
    (e3 : Ev) (he3 : isCmdEv e3 = true) (l4 : List Ev) :
    xferPayload (l1 ++ Ev.cmd 0x10 :: (l2 ++ e3 :: l4)) = (l2.map evBytes).flatten := by
  rw [xferPayload_append_no16 _ _ h1, xferPayload, List.dropWhile_cons]
  simp only [beq_self_eq_true, Bool.not_true, Bool.false_eq_true, if_false,
    List.drop_succ_cons, List.drop_zero]
  rw [List.takeWhile_append_of_pos h2, List.takeWhile_cons]
  simp [he3]

theorem payloadEvents_shape (g : ℕ → ℕ → Color) :
    drawEvents g = [Ev.cmd 0x61, Ev.data [0x02, 0x58, 0x01, 0xC0]] ++
      Ev.cmd 0x10 :: (payloadEvents g ++ Ev.cmd 0x04 ::
        [Ev.waitHigh, Ev.cmd 0x12, Ev.waitHigh, Ev.cmd 0x02, Ev.waitLow, Ev.sleepMs 200]) := by
  simp [drawEvents]

theorem payload_flatten (g : ℕ → ℕ → Color) :
    ((payloadEvents g).map evBytes).flatten = payloadBytes g := by
  rw [← List.flatMap_def, payloadEvents, List.flatMap_assoc, payloadBytes]
  simp only [List.flatMap_map, evBytes]
  simp only [← List.map_eq_flatMap]

theorem xferPayload_draw (g : ℕ → ℕ → Color) :
    xferPayload (drawEvents g) = payloadBytes g := by
  have h2 : ∀ e ∈ payloadEvents g, (!(isCmdEv e)) = true := by
    intro e he
    obtain ⟨bs, rfl⟩ := payload_mem he
    rfl
  rw [payloadEvents_shape g,
    xferPayload_at16 _ (by decide) _ h2 (Ev.cmd 0x04) rfl _, payload_flatten]

theorem flatMap_range_map {α : Type} (f : ℕ → ℕ → α) (w : ℕ) :
    ∀ h, (List.range h).flatMap (fun y => (List.range w).map (fun x => f x y)) =
      (List.range (h * w)).map (fun i => f (i % w) (i / w)) := by
  intro h
  induction h with
  | zero => simp
  | succ h ih =>
    rw [List.range_succ, List.flatMap_append, ih, List.flatMap_singleton,
      Nat.succ_mul, List.range_add, List.map_append, List.map_map]
    refine congrArg _ ?_
    refine List.map_congr_left ?_
    intro x hx
    have hxw : x < w := List.mem_range.mp hx
    have hw : 0 < w := Nat.lt_of_le_of_lt (Nat.zero_le x) hxw
    have h1 : (h * w + x) % w = x := by
      rw [Nat.mul_comm, Nat.mul_add_mod, Nat.mod_eq_of_lt hxw]
    have h2 : (h * w + x) / w = h := by
      rw [Nat.mul_comm, Nat.mul_add_div hw, Nat.div_eq_of_lt hxw, Nat.add_zero]
    show f x h = f ((h * w + x) % w) ((h * w + x) / w)
    rw [h1, h2]

theorem payloadBytes_map (g : ℕ → ℕ → Color) :
    payloadBytes g = (List.range (SCREEN_HEIGHT * (SCREEN_WIDTH / 2))).map
      (fun i => pxByte g (i % (SCREEN_WIDTH / 2)) (i / (SCREEN_WIDTH / 2))) :=
  flatMap_range_map (fun x y => pxByte g x y) (SCREEN_WIDTH / 2) SCREEN_HEIGHT

theorem xfer_draw_devOk (g : ℕ → ℕ → Color) :
    xferPayload (runTr (Draw.send g devOk st0)) = payloadBytes g := by
  rw [Draw_send_ok_tr g devOk st0 (fun _ => rfl)]
  show xferPayload ([] ++ drawEvents g) = _
  rw [List.nil_append, xferPayload_draw]

theorem pxByte_code (c1 c2 : Color) : (c1.code <<< 4) ||| c2.code = 16 * c1.code + c2.code := by
  cases c1 <;> cases c2 <;> rfl

/-- Claim C1 (counterexample): with all four flags enabled, the Panel-setting
command actually emits the data bytes [0xEF, 0x08]; 0xEF differs from the
0xF8 the claim asserts. -/
theorem panelSetting_F8_claim_false :
    PanelSetting.default.send devOk st0 =
      Except.ok ⟨2, [Ev.cmd 0x00, Ev.data [0xEF, 0x08]]⟩ ∧
    ([0xEF, 0x08] : List ℕ) ≠ [0xF8, 0x08] :=
  ⟨rfl, by decide⟩

/-- Claim C1 (amended): encoding the Panel-setting command with all four flags
true emits exactly the command byte 0x00 followed by the two data bytes
[0xEF, 0x08], where 0xEF is the three fixed high bits 0b111 with the four
flags in bits 3..0, and 0x08 is the fixed trailing byte. -/
theorem panelSetting_all_flags_EF08 :
    PanelSetting.default.send devOk st0 =
      Except.ok ⟨2, [Ev.cmd 0x00, Ev.data [0xEF, 0x08]]⟩ ∧
    (0xEF : ℕ) = 0b11100000 ||| to_bit true 3 ||| to_bit true 2 |||
      to_bit true 1 ||| to_bit true 0 :=
  ⟨rfl, by decide⟩

/-- Claim C5: on a failure-free transport the draw-and-refresh sequence
produces exactly, in order: Resolution setting, command 0x10 with the
full-frame payload, Power on (0x04) then busy-high block, Display refresh
(0x12) then busy-high block, Power off (0x02) then busy-low block, and a
200ms settling delay — and nothing else (the appended trace equals
drawEvents exactly). -/
theorem draw_and_refresh_sequence (g : ℕ → ℕ → Color) (dev : Dev) (s : St)
    (hdev : ∀ k, dev.sendOk k = true) :
    Draw.send g dev s = Except.ok ⟨s.n + 134406, s.tr ++ drawEvents g⟩ :=
  Draw_send_ok_tr g dev s hdev

/-- Witness for C5 at a concrete drawable, device and state. -/
theorem draw_and_refresh_sequence_witness :
    Draw.send (SolidColor.get_pixel ⟨Color.Black⟩) devOk st0 =
      Except.ok ⟨st0.n + 134406, st0.tr ++ drawEvents (SolidColor.get_pixel ⟨Color.Black⟩)⟩ :=
  draw_and_refresh_sequence (SolidColor.get_pixel ⟨Color.Black⟩) devOk st0 (fun _ => rfl)

theorem except_bind_ok (a : St) (f : St → Except St St) :
    Except.bind (Except.ok a) f = f a := rfl

theorem initThenDrawClean_tr :
    runTr initThenDrawClean =
      initEvents ++ drawEvents (SolidColor.get_pixel ⟨Color.Clean⟩) := by
  rw [initThenDrawClean, Init_send_ok_tr devOk st0 (fun _ => rfl), except_bind_ok,
    Draw_send_ok_tr _ devOk _ (fun _ => rfl)]
  simp [runTr, st0]

theorem pxByte_clean (x y : ℕ) :
    pxByte (SolidColor.get_pixel ⟨Color.Clean⟩) x y = 0x77 := by
  show ((Color.Clean.code <<< 4) ||| Color.Clean.code : ℕ) = 0x77
  decide

theorem countP16_payload (g : ℕ → ℕ → Color) :
    (payloadEvents g).countP (fun e => e == Ev.cmd 0x10) = 0 := by
  rw [List.countP_eq_zero]
  intro e he
  obtain ⟨bs, rfl⟩ := payload_mem he
  simp

/-- Claim C6: the initialize sequence followed by draw-and-refresh over the
solid Clean source issues exactly one Data-transfer command (opcode 0x10),
and its payload is (600/2)*448 bytes, every byte 0x77, the Clean code
repeated in both nibbles. -/
theorem clean_frame_single_transfer :
    (runTr initThenDrawClean).countP (fun e => e == Ev.cmd 0x10) = 1 ∧
    xferPayload (runTr initThenDrawClean) =
      List.replicate ((SCREEN_WIDTH / 2) * SCREEN_HEIGHT) 0x77 ∧
    (0x77 : ℕ) = 16 * Color.Clean.code + Color.Clean.code := by
  refine ⟨?_, ?_, by decide⟩
  · have h1 : initEvents.countP (fun e => e == Ev.cmd 0x10) = 0 := by decide
    have h2 : (drawEvents (SolidColor.get_pixel ⟨Color.Clean⟩)).countP
        (fun e => e == Ev.cmd 0x10) = 1 := by
      rw [drawEvents, List.countP_append, List.countP_append,
        countP16_payload (SolidColor.get_pixel ⟨Color.Clean⟩)]
      decide
    rw [initThenDrawClean_tr, List.countP_append, h1, h2]
  · rw [initThenDrawClean_tr,
      xferPayload_append_no16 initEvents _ (by decide),
      xferPayload_draw, payloadBytes_map,
      List.map_congr_left (fun i _ => pxByte_clean
        (i % (SCREEN_WIDTH / 2)) (i / (SCREEN_WIDTH / 2))),
      List.map_const', List.length_range, Nat.mul_comm]

/-- Claim C7: each payload byte covers two horizontal pixels, even-x code in
the high nibble and odd-x code in the low nibble (so codes 0x4 and 0x2 pack
to 0x42), and the byte for pair column x of row y sits at row-major position
y * (width/2) + x of a payload of (width/2) * height bytes. -/
theorem data_transfer_packing :
    (∀ c1 c2 : Color, (c1.code <<< 4) ||| c2.code = 16 * c1.code + c2.code) ∧
    ((Color.Red.code <<< 4) ||| Color.Green.code = 0x42) ∧
    (∀ (g : ℕ → ℕ → Color) (x y : ℕ), x < SCREEN_WIDTH / 2 → y < SCREEN_HEIGHT →
      (xferPayload (runTr (Draw.send g devOk st0)))[y * (SCREEN_WIDTH / 2) + x]? =
        some (16 * (g (x * 2) y).code + (g (x * 2 + 1) y).code)) ∧
    (∀ g : ℕ → ℕ → Color,
      (xferPayload (runTr (Draw.send g devOk st0))).length =
        (SCREEN_WIDTH / 2) * SCREEN_HEIGHT) := by
  refine ⟨pxByte_code, by decide, ?_, ?_⟩
  · intro g x y hx hy
    rw [xfer_draw_devOk, payloadBytes_map, List.getElem?_map]
    have hi : y * (SCREEN_WIDTH / 2) + x < SCREEN_HEIGHT * (SCREEN_WIDTH / 2) := by
      have hw : (SCREEN_WIDTH / 2) = 300 := rfl
      have hh : SCREEN_HEIGHT = 448 := rfl
      rw [hw] at hx ⊢
      rw [hh] at hy ⊢
      omega
    rw [List.getElem?_range hi]
    show some (pxByte g ((y * (SCREEN_WIDTH / 2) + x) % (SCREEN_WIDTH / 2))
        ((y * (SCREEN_WIDTH / 2) + x) / (SCREEN_WIDTH / 2))) = _
    have hwpos : 0 < SCREEN_WIDTH / 2 := Nat.lt_of_le_of_lt (Nat.zero_le x) hx
    have h1 : (y * (SCREEN_WIDTH / 2) + x) % (SCREEN_WIDTH / 2) = x := by
      rw [Nat.mul_comm y (SCREEN_WIDTH / 2), Nat.mul_add_mod, Nat.mod_eq_of_lt hx]
    have h2 : (y * (SCREEN_WIDTH / 2) + x) / (SCREEN_WIDTH / 2) = y := by
      rw [Nat.mul_comm y (SCREEN_WIDTH / 2), Nat.mul_add_div hwpos,
        Nat.div_eq_of_lt hx, Nat.add_zero]
    rw [h1, h2, pxByte, pxByte_code]
  · intro g
    rw [xfer_draw_devOk, payloadBytes_map, List.length_map, List.length_range,
      Nat.mul_comm]

/-- Witness for C7 at a concrete drawable whose first two pixels have codes
0x4 (Red) and 0x2 (Green). -/
theorem data_transfer_packing_witness :
    (0 < SCREEN_WIDTH / 2 ∧ 0 < SCREEN_HEIGHT) ∧
    (xferPayload (runTr (Draw.send
        (fun x _ => if x = 0 then Color.Red else Color.Green)
        devOk st0)))[0 * (SCREEN_WIDTH / 2) + 0]? =
      some (16 * ((fun x _ => if x = 0 then Color.Red else Color.Green) (0 * 2) 0).code +
        ((fun x _ => if x = 0 then Color.Red else Color.Green) (0 * 2 + 1) 0).code) :=
  ⟨⟨by decide, by decide⟩,
    data_transfer_packing.2.2.1
      (fun x _ => if x = 0 then Color.Red else Color.Green) 0 0 (by decide) (by decide)⟩

/-- Every numbered send call in the interval [a, b) succeeds on dev. -/
def okUpTo (dev : Dev) (a b : ℕ) : Prop :=
  ∀ k, a ≤ k → k < b → dev.sendOk k = true

/-- Abort discipline of a command: on success the appended events contain one
send per counted call, all of which succeeded; on failure the last counted
call is the first failing one and only the earlier, successful calls
contributed bytes — nothing is transmitted after the failing call, and the
error propagates as-is. -/
def GoodCmd (f : Dev → St → Except St St) : Prop :=
  ∀ dev s,
    (∀ s2, f dev s = Except.ok s2 → s.n ≤ s2.n ∧ okUpTo dev s.n s2.n ∧
      ∃ t, s2.tr = s.tr ++ t ∧ t.countP isSend = s2.n - s.n) ∧
    (∀ s2, f dev s = Except.error s2 → s.n < s2.n ∧ dev.sendOk (s2.n - 1) = false ∧
      okUpTo dev s.n (s2.n - 1) ∧
      ∃ t, s2.tr = s.tr ++ t ∧ t.countP isSend = (s2.n - 1) - s.n)

theorem good_send_like (ev : Ev) (hev : isSend ev = true) :
    GoodCmd (fun dev s => if dev.sendOk s.n = true then
      Except.ok ⟨s.n + 1, s.tr ++ [ev]⟩ else Except.error ⟨s.n + 1, s.tr⟩) := by
  intro dev s
  constructor
  · intro s2 h
    dsimp only at h
    by_cases hc : dev.sendOk s.n = true
    · rw [if_pos hc] at h
      injection h with h
      subst h
      dsimp only
      refine ⟨by omega, ?_, [ev], rfl, ?_⟩
      · intro k hk1 hk2
        have hk : k = s.n := by omega
        rwa [hk]
      · simp [hev]
    · rw [if_neg hc] at h
      exact Except.noConfusion h
  · intro s2 h
    dsimp only at h
    by_cases hc : dev.sendOk s.n = true
    · rw [if_pos hc] at h
      exact Except.noConfusion h
    · rw [if_neg hc] at h
      injection h with h
      subst h
      dsimp only
      refine ⟨by omega, ?_, ?_, [], by simp, by simp⟩
      · show dev.sendOk (s.n + 1 - 1) = false
        have hn : s.n + 1 - 1 = s.n := by omega
        rw [hn]
        exact Bool.eq_false_iff.mpr hc
      · intro k hk1 hk2
        exact absurd (Nat.lt_of_le_of_lt hk1 hk2) (by omega)

theorem good_sendCmd (b : ℕ) : GoodCmd (fun dev s => sendCmd dev b s) :=
  good_send_like (Ev.cmd b) rfl

theorem good_sendData (bs : List ℕ) : GoodCmd (fun dev s => sendData dev bs s) :=
  good_send_like (Ev.data bs) rfl

theorem good_pure_note (e : Ev) (he : isSend e = false) :
    GoodCmd (fun _ s => (pure (noteEv s e) : Except St St)) := by
  intro dev s
  constructor
  · intro s2 h
    dsimp only at h
    injection h with h
    subst h
    refine ⟨by simp [noteEv], ?_, [e], rfl, ?_⟩
    · intro k hk1 hk2
      dsimp only [noteEv] at hk2
      exact absurd (Nat.lt_of_le_of_lt hk1 hk2) (by omega)
    · dsimp only [noteEv]
      simp [he]
  · intro s2 h
    exact Except.noConfusion h

theorem good_pure_id : GoodCmd (fun _ s => (pure s : Except St St)) := by
  intro dev s
  constructor
  · intro s2 h
    dsimp only at h
    injection h with h
    subst h
    refine ⟨Nat.le_refl _, ?_, [], by simp, by simp⟩
    intro k hk1 hk2
    exact absurd (Nat.lt_of_le_of_lt hk1 hk2) (Nat.lt_irrefl _)
  · intro s2 h
    exact Except.noConfusion h

theorem good_bind {f g : Dev → St → Except St St} (hf : GoodCmd f) (hg : GoodCmd g) :
    GoodCmd (fun dev s => (f dev s).bind (g dev)) := by
  intro dev s
  constructor
  · intro s2 h
    dsimp only at h
    cases hf1 : f dev s with
    | error e =>
      rw [hf1] at h
      exact Except.noConfusion h
    | ok s1 =>
      rw [hf1, except_bind_ok] at h
      obtain ⟨h1, h2, t1, ht1, hc1⟩ := ((hf dev s).1 s1 hf1)
      obtain ⟨h1x, h2x, t2, ht2, hc2⟩ := ((hg dev s1).1 s2 h)
      refine ⟨by omega, ?_, t1 ++ t2, by rw [ht2, ht1, List.append_assoc], ?_⟩
      · intro k hk1 hk2
        by_cases hks : k < s1.n
        · exact h2 k hk1 hks
        · exact h2x k (by omega) hk2
      · rw [List.countP_append, hc1, hc2]
        omega
  · intro s2 h
    dsimp only at h
    cases hf1 : f dev s with
    | error e =>
      rw [hf1] at h
      injection h with h
      subst h
      exact (hf dev s).2 _ hf1
    | ok s1 =>
      rw [hf1, except_bind_ok] at h
      obtain ⟨h1, h2, t1, ht1, hc1⟩ := ((hf dev s).1 s1 hf1)
      obtain ⟨h1x, hfail, h2x, t2, ht2, hc2⟩ := ((hg dev s1).2 s2 h)
      refine ⟨by omega, hfail, ?_, t1 ++ t2, by rw [ht2, ht1, List.append_assoc], ?_⟩
      · intro k hk1 hk2
        by_cases hks : k < s1.n
        · exact h2 k hk1 hks
        · exact h2x k (by omega) hk2
      · rw [List.countP_append, hc1, hc2]
        omega

theorem good_foldlM {β : Type} (body : β → Dev → St → Except St St)
    (hbody : ∀ a, GoodCmd (body a)) :
    ∀ l : List β, GoodCmd (fun dev s => l.foldlM (fun s a => body a dev s) s) := by
  intro l
  induction l with
  | nil => exact good_pure_id
  | cons a l ih => exact good_bind (hbody a) ih

theorem good_PanelSetting (ps : PanelSetting) : GoodCmd (ps.send) :=
  good_bind (good_sendCmd 0x00) (good_sendData _)

theorem good_InternalPower : GoodCmd InternalPower.send :=
  good_bind (good_sendCmd 0x01) (good_sendData _)

theorem good_PowerOffSequence : GoodCmd PowerOffSequence.send :=
  good_bind (good_sendCmd 0x03) (good_sendData _)

theorem good_BoosterSoftStart : GoodCmd BoosterSoftStart.send :=
  good_bind (good_sendCmd 0x06) (good_sendData _)

theorem good_PLLControl : GoodCmd PLLControl.send :=
  good_bind (good_sendCmd 0x30) (good_sendData _)

theorem good_TempSensor : GoodCmd TempSensor.send :=
  good_bind (good_sendCmd 0x41) (good_sendData _)

theorem good_VCOMDataInterval (c : Color) : GoodCmd (VCOMDataInterval.send c) :=
  good_bind (good_sendCmd 0x50) (good_sendData _)

theorem good_Unknown6022 : GoodCmd Unknown6022.send :=
  good_bind (good_sendCmd 0x60) (good_sendData _)

theorem good_SetResolution : GoodCmd SetResolution.send :=
  good_bind (good_sendCmd 0x61) (good_sendData _)

theorem good_UnknownE3AA : GoodCmd UnknownE3AA.send :=
  good_bind (good_sendCmd 0xE3) (good_sendData _)

theorem good_PowerOn : GoodCmd PowerOn.send :=
  good_bind (good_sendCmd 0x04) (good_pure_note Ev.waitHigh rfl)

theorem good_DisplayRefresh : GoodCmd DisplayRefresh.send :=
  good_bind (good_sendCmd 0x12) (good_pure_note Ev.waitHigh rfl)

theorem good_PowerOff : GoodCmd PowerOff.send :=
  good_bind (good_sendCmd 0x02) (good_pure_note Ev.waitLow rfl)

theorem good_pre_note {g : Dev → St → Except St St} (e : Ev) (he : isSend e = false)
    (hg : GoodCmd g) : GoodCmd (fun dev s => g dev (noteEv s e)) := by
  intro dev s
  constructor
  · intro s2 h
    dsimp only at h
    obtain ⟨h1, h2, t, ht, hc⟩ := (hg dev (noteEv s e)).1 s2 h
    dsimp only [noteEv] at h1 h2 ht hc
    refine ⟨h1, h2, e :: t, by rw [ht]; simp, ?_⟩
    simp [he, hc]
  · intro s2 h
    dsimp only at h
    obtain ⟨h1, hfail, h2, t, ht, hc⟩ := (hg dev (noteEv s e)).2 s2 h
    dsimp only [noteEv] at h1 h2 ht hc
    refine ⟨h1, hfail, h2, e :: t, by rw [ht]; simp, ?_⟩
    simp [he, hc]

theorem good_Init : GoodCmd Init.send :=
  good_bind (good_PanelSetting _)
    (good_bind good_InternalPower
      (good_bind good_PowerOffSequence
        (good_bind good_BoosterSoftStart
          (good_bind good_PLLControl
            (good_bind good_TempSensor
              (good_bind (good_VCOMDataInterval _)
                (good_bind good_Unknown6022
                  (good_bind good_SetResolution
                    (good_bind good_UnknownE3AA
                      (good_pre_note (Ev.sleepMs 100) rfl
                        (good_VCOMDataInterval _)))))))))))

theorem good_Draw (g : ℕ → ℕ → Color) : GoodCmd (Draw.send g) :=
  good_bind good_SetResolution
    (good_bind (good_sendCmd 0x10)
      (good_bind
        (good_foldlM
          (fun y dev s => (List.range (SCREEN_WIDTH / 2)).foldlM
            (fun s x => sendData dev [pxByte g x y] s) s)
          (fun y => good_foldlM (fun x dev s => sendData dev [pxByte g x y] s)
            (fun _ => good_sendData _) (List.range (SCREEN_WIDTH / 2)))
          (List.range SCREEN_HEIGHT))
        (good_bind good_PowerOn
          (good_bind good_DisplayRefresh
            (good_bind good_PowerOff
              (good_pure_note (Ev.sleepMs 200) rfl))))))

/-- Claim C8: a transport send failure anywhere inside Init or Draw aborts the
sequence at that call: the failing call is the first one the device refuses,
every earlier call succeeded and contributed exactly its own bytes, and no
command or data event is appended after the failing call (the appended trace
counts one send event per successful call only); the error is the propagated
failure state itself, with no retry (each call index is attempted once). -/
theorem transport_failure_aborts :
    ∀ (dev : Dev) (s s2 : St) (g : ℕ → ℕ → Color),
      (Init.send dev s = Except.error s2 →
        s.n < s2.n ∧ dev.sendOk (s2.n - 1) = false ∧ okUpTo dev s.n (s2.n - 1) ∧
        ∃ t, s2.tr = s.tr ++ t ∧ t.countP isSend = (s2.n - 1) - s.n) ∧
      (Draw.send g dev s = Except.error s2 →
        s.n < s2.n ∧ dev.sendOk (s2.n - 1) = false ∧ okUpTo dev s.n (s2.n - 1) ∧
        ∃ t, s2.tr = s.tr ++ t ∧ t.countP isSend = (s2.n - 1) - s.n) :=
  fun dev s s2 g => ⟨(good_Init dev s).2 s2, (good_Draw g dev s).2 s2⟩

/-- Witness for C8: on a device whose very first send call fails, both Init
and Draw abort immediately with an empty appended trace. -/
theorem transport_failure_aborts_witness :
    (st0.n < (1 : ℕ) ∧ devFail0.sendOk (1 - 1) = false ∧ okUpTo devFail0 st0.n (1 - 1) ∧
      ∃ t, (⟨1, []⟩ : St).tr = st0.tr ++ t ∧ t.countP isSend = (1 - 1) - st0.n) ∧
    (st0.n < (1 : ℕ) ∧ devFail0.sendOk (1 - 1) = false ∧ okUpTo devFail0 st0.n (1 - 1) ∧
      ∃ t, (⟨1, []⟩ : St).tr = st0.tr ++ t ∧ t.countP isSend = (1 - 1) - st0.n) :=
  ⟨(transport_failure_aborts devFail0 st0 ⟨1, []⟩ (fun _ _ => Color.Black)).1 rfl,
   (transport_failure_aborts devFail0 st0 ⟨1, []⟩ (fun _ _ => Color.Black)).2 rfl⟩

theorem runTr_extends {f : Dev → St → Except St St} (hf : GoodCmd f) (dev : Dev) (s : St) :
    ∃ t, runTr (f dev s) = s.tr ++ t := by
  cases h : f dev s with
  | ok s2 =>
    obtain ⟨-, -, t, ht, -⟩ := (hf dev s).1 s2 h
    exact ⟨t, ht⟩
  | error s2 =>
    obtain ⟨-, -, -, t, ht, -⟩ := (hf dev s).2 s2 h
    exact ⟨t, ht⟩

theorem mainRun_tr_shape (dev : Dev) (clean : Bool) (w h : ℕ) (img : ℕ → ℕ → Rgb) :
    ∃ rest, runTr (mainRun dev clean w h img) =
      [Ev.resetHigh, Ev.sleepMs 600, Ev.resetLow, Ev.sleepMs 2, Ev.resetHigh,
       Ev.sleepMs 200] ++ Ev.checkDims :: rest := by
  by_cases hd : w = SCREEN_WIDTH ∧ h = SCREEN_HEIGHT
  · cases clean with
    | true =>
      have hgood : GoodCmd (fun dev s =>
          (Init.send dev s).bind (fun s1 =>
            (Draw.send (SolidColor.get_pixel ⟨Color.Clean⟩) dev s1).bind
              (fun s3 => pure s3))) :=
        good_bind good_Init (good_bind (good_Draw _) good_pure_id)
      obtain ⟨t, ht⟩ := runTr_extends hgood dev
        (noteEv (EPaper.reset (noteEv (EPaper.init st0) Ev.checkDims)) Ev.waitHigh)
      refine ⟨[Ev.resetHigh, Ev.sleepMs 600, Ev.resetLow, Ev.sleepMs 2, Ev.resetHigh,
        Ev.sleepMs 200, Ev.waitHigh] ++ t, ?_⟩
      have hm : mainRun dev true w h img =
          (Init.send dev
            (noteEv (EPaper.reset (noteEv (EPaper.init st0) Ev.checkDims)) Ev.waitHigh)).bind
            (fun s1 =>
              (Draw.send (SolidColor.get_pixel ⟨Color.Clean⟩) dev s1).bind
                (fun s3 => pure s3)) := by
        rw [mainRun, if_pos hd, bind_ok_st]
        rfl
      rw [hm, ht]
      simp [noteEv, EPaper.reset, EPaper.init, st0]
    | false =>
      have hgood : GoodCmd (fun dev s =>
          (Init.send dev s).bind (fun s1 =>
            (Draw.send (floyd_steinberg_dither img) dev s1).bind
              (fun s3 => pure s3))) :=
        good_bind good_Init (good_bind (good_Draw _) good_pure_id)
      obtain ⟨t, ht⟩ := runTr_extends hgood dev
        (noteEv (EPaper.reset (noteEv (EPaper.init st0) Ev.checkDims)) Ev.waitHigh)
      refine ⟨[Ev.resetHigh, Ev.sleepMs 600, Ev.resetLow, Ev.sleepMs 2, Ev.resetHigh,
        Ev.sleepMs 200, Ev.waitHigh] ++ t, ?_⟩
      have hm : mainRun dev false w h img =
          (Init.send dev
            (noteEv (EPaper.reset (noteEv (EPaper.init st0) Ev.checkDims)) Ev.waitHigh)).bind
            (fun s1 =>
              (Draw.send (floyd_steinberg_dither img) dev s1).bind
                (fun s3 => pure s3)) := by
        rw [mainRun, if_pos hd, bind_ok_st]
        rfl
      rw [hm, ht]
      simp [noteEv, EPaper.reset, EPaper.init, st0]
  · refine ⟨[], ?_⟩
    have hm : mainRun dev clean w h img =
        Except.error (noteEv (EPaper.init st0) Ev.checkDims) := by
      rw [mainRun, if_neg hd, bind_error_st]
    rw [hm]
    rfl

theorem mainRun_abort_mismatch (dev : Dev) (clean : Bool) (w h : ℕ)
    (img : ℕ → ℕ → Rgb) (hd : ¬(w = SCREEN_WIDTH ∧ h = SCREEN_HEIGHT)) :
    mainRun dev clean w h img = Except.error ⟨0,
      [Ev.resetHigh, Ev.sleepMs 600, Ev.resetLow, Ev.sleepMs 2, Ev.resetHigh,
       Ev.sleepMs 200, Ev.checkDims]⟩ := by
  rw [mainRun]
  rw [if_neg hd, bind_error_st]
  rfl

theorem beforeCheck_shape (rest : List Ev) :
    beforeCheck ([Ev.resetHigh, Ev.sleepMs 600, Ev.resetLow, Ev.sleepMs 2, Ev.resetHigh,
      Ev.sleepMs 200] ++ Ev.checkDims :: rest) =
      [Ev.resetHigh, Ev.sleepMs 600, Ev.resetLow, Ev.sleepMs 2, Ev.resetHigh,
       Ev.sleepMs 200] := by
  rw [beforeCheck, List.takeWhile_append_of_pos (by decide), List.takeWhile_cons]
  simp

/-- Claim C3 (counterexample): at a concrete run (device always ok, mismatched
0x0 image), a reset-pin manipulation — a hardware interaction in the claim's
own list — appears in the trace strictly before the dimension-check marker,
refuting "no transport operation occurs prior to that dimension check". -/
theorem hw_before_dim_check_claim_false :
    ¬ (∀ e ∈ beforeCheck (runTr (mainRun devOk false 0 0 (fun _ _ => ⟨0, 0, 0⟩))),
        isHw e = false) := by decide

/-- Claim C3 (amended): the dimension check happens before any command byte,
data byte or busy-wait — the only events preceding it are the reset-pin
sequence (with its sleeps) run when the EPaper handle is constructed — and on
a dimension mismatch the program aborts right after the check, having sent no
command or data bytes and performed no busy-wait. -/
theorem dim_check_before_bus_traffic :
    ∀ (dev : Dev) (clean : Bool) (w h : ℕ) (img : ℕ → ℕ → Rgb),
      beforeCheck (runTr (mainRun dev clean w h img)) =
        [Ev.resetHigh, Ev.sleepMs 600, Ev.resetLow, Ev.sleepMs 2, Ev.resetHigh,
         Ev.sleepMs 200] ∧
      (∀ e ∈ beforeCheck (runTr (mainRun dev clean w h img)),
        e = Ev.resetHigh ∨ e = Ev.resetLow ∨ ∃ ms, e = Ev.sleepMs ms) ∧
      (¬(w = SCREEN_WIDTH ∧ h = SCREEN_HEIGHT) →
        mainRun dev clean w h img = Except.error ⟨0,
          [Ev.resetHigh, Ev.sleepMs 600, Ev.resetLow, Ev.sleepMs 2, Ev.resetHigh,
           Ev.sleepMs 200, Ev.checkDims]⟩) := by
  intro dev clean w h img
  obtain ⟨rest, hrest⟩ := mainRun_tr_shape dev clean w h img
  have h1 : beforeCheck (runTr (mainRun dev clean w h img)) =
      [Ev.resetHigh, Ev.sleepMs 600, Ev.resetLow, Ev.sleepMs 2, Ev.resetHigh,
       Ev.sleepMs 200] := by
    rw [hrest, beforeCheck_shape]
  refine ⟨h1, ?_, mainRun_abort_mismatch dev clean w h img⟩
  intro e he
  rw [h1] at he
  simp only [List.mem_cons, List.not_mem_nil, or_false] at he
  rcases he with rfl | rfl | rfl | rfl | rfl | rfl
  · exact Or.inl rfl
  · exact Or.inr (Or.inr ⟨600, rfl⟩)
  · exact Or.inr (Or.inl rfl)
  · exact Or.inr (Or.inr ⟨2, rfl⟩)
  · exact Or.inl rfl
  · exact Or.inr (Or.inr ⟨200, rfl⟩)

/-- Witness for C3's amended claim at concrete inputs: the reset-pin event is
among the pre-check events, and a 0x0 image aborts right after the check. -/
theorem dim_check_before_bus_traffic_witness :
    (Ev.resetHigh = Ev.resetHigh ∨ Ev.resetHigh = Ev.resetLow ∨
      ∃ ms, Ev.resetHigh = Ev.sleepMs ms) ∧
    mainRun devOk true 0 0 (fun _ _ => ⟨0, 0, 0⟩) = Except.error ⟨0,
      [Ev.resetHigh, Ev.sleepMs 600, Ev.resetLow, Ev.sleepMs 2, Ev.resetHigh,
       Ev.sleepMs 200, Ev.checkDims]⟩ := by
  have hthm := dim_check_before_bus_traffic devOk true 0 0 (fun _ _ => ⟨0, 0, 0⟩)
  refine ⟨hthm.2.1 Ev.resetHigh ?_, hthm.2.2 (by decide)⟩
  rw [hthm.1]
  decide

/-- Claim C9: quantizing any palette color's exact reference RGB value gives
back that same color. -/
theorem closest_as_rgb_roundtrip : ∀ c : Color, Color.closest c.as_rgb = c := by
  intro c
  cases c <;>
    · simp only [Color.closest, Color.all, Color.ed, Color.as_rgb, List.foldl]
      norm_num

theorem foldl_min_first {α : Type} (f : α → ℚ) :
    ∀ (xs : List α) (x : α),
      ∃ l₁ l₂,
        x :: xs = l₁ ++ (xs.foldl (fun acc y => if f acc ≤ f y then acc else y) x) :: l₂ ∧
        (∀ y ∈ l₁, f (xs.foldl (fun acc y => if f acc ≤ f y then acc else y) x) < f y) ∧
        (∀ y ∈ x :: xs, f (xs.foldl (fun acc y => if f acc ≤ f y then acc else y) x) ≤ f y) := by
  intro xs
  induction xs with
  | nil =>
    intro x
    refine ⟨[], [], rfl, by simp, ?_⟩
    intro y hy
    rw [List.mem_singleton.mp hy]
    exact le_refl _
  | cons a xs ih =>
    intro x
    rw [List.foldl_cons]
    by_cases hc : f x ≤ f a
    · rw [if_pos hc]
      obtain ⟨l₁, l₂, hsplit, hstrict, hmin⟩ := ih x
      cases l₁ with
      | nil =>
        rw [List.nil_append] at hsplit
        injection hsplit with hx hxs
        refine ⟨[], a :: xs, ?_, by simp, ?_⟩
        · rw [List.nil_append, ← hx]
        · intro y hy
          rcases List.mem_cons.mp hy with rfl | hy2
          · exact hmin y (List.mem_cons_self _ _)
          rcases List.mem_cons.mp hy2 with rfl | hy3
          · exact le_trans (hmin x (List.mem_cons_self _ _)) hc
          · exact hmin y (List.mem_cons_of_mem _ hy3)
      | cons b l1x =>
        rw [List.cons_append] at hsplit
        injection hsplit with hxb hxs
        have hmx : f (xs.foldl (fun acc y => if f acc ≤ f y then acc else y) x) < f x := by
          have h0 := hstrict b (List.mem_cons_self _ _)
          rwa [← hxb] at h0
        refine ⟨x :: a :: l1x, l₂, ?_, ?_, ?_⟩
        · rw [List.cons_append, List.cons_append, ← hxs]
        · intro y hy
          rcases List.mem_cons.mp hy with rfl | hy2
          · exact hmx
          rcases List.mem_cons.mp hy2 with rfl | hy3
          · exact lt_of_lt_of_le hmx hc
          · exact hstrict y (List.mem_cons_of_mem _ hy3)
        · intro y hy
          rcases List.mem_cons.mp hy with rfl | hy2
          · exact le_of_lt hmx
          rcases List.mem_cons.mp hy2 with rfl | hy3
          · exact le_of_lt (lt_of_lt_of_le hmx hc)
          · exact hmin y (List.mem_cons_of_mem _ hy3)
    · rw [if_neg hc]
      have hax : f a < f x := lt_of_not_le hc
      obtain ⟨l₁, l₂, hsplit, hstrict, hmin⟩ := ih a
      have hma : f (xs.foldl (fun acc y => if f acc ≤ f y then acc else y) a) ≤ f a :=
        hmin a (List.mem_cons_self _ _)
      refine ⟨x :: l₁, l₂, ?_, ?_, ?_⟩
      · rw [List.cons_append, ← hsplit]
      · intro y hy
        rcases List.mem_cons.mp hy with rfl | hy2
        · exact lt_of_le_of_lt hma hax
        · exact hstrict y hy2
      · intro y hy
        rcases List.mem_cons.mp hy with rfl | hy2
        · exact le_of_lt (lt_of_le_of_lt hma hax)
        · exact hmin y hy2

/-- Claim C2: for every RGB sample, closest returns a palette entry whose
squared distance is minimal over the whole enumeration, and every entry
strictly before it in enumeration order has strictly larger distance — so on
ties the first-encountered entry wins. -/
theorem closest_min_first (p : Rgb) :
    ∃ l₁ l₂, Color.all = l₁ ++ Color.closest p :: l₂ ∧
      (∀ c ∈ l₁, Color.ed p (Color.closest p) < Color.ed p c) ∧
      ∀ c ∈ Color.all, Color.ed p (Color.closest p) ≤ Color.ed p c :=
  foldl_min_first (Color.ed p)
    [Color.Black, Color.White, Color.Green, Color.Blue,
     Color.Red, Color.Yellow, Color.Orange] Color.Clean

/-- Claim C10: get_pixel never compares x against the width — it returns the
backing entry at flat index x + y*600 whenever that index is in bounds (so
for x < 600, y < 448 it succeeds with the row-major entry of (x, y), while
for x ≥ 600 with the flat index still in bounds it silently returns the
pixel of the different, canonical coordinate of that index), and it fails
exactly when x + y*600 ≥ 600*448. -/
theorem paper_image_get_pixel_char :
    (∀ (img : PaperImage) (x y : ℕ)
        (h : x + y * SCREEN_WIDTH < SCREEN_HEIGHT * SCREEN_WIDTH),
      img.get_pixel x y = some (img.data ⟨x + y * SCREEN_WIDTH, h⟩)) ∧
    (∀ (img : PaperImage) (x y : ℕ), x < SCREEN_WIDTH → y < SCREEN_HEIGHT →
      (img.get_pixel x y).isSome = true) ∧
    (∀ (img : PaperImage) (x y : ℕ), SCREEN_WIDTH ≤ x →
      x + y * SCREEN_WIDTH < SCREEN_HEIGHT * SCREEN_WIDTH →
      (x + y * SCREEN_WIDTH) % SCREEN_WIDTH < SCREEN_WIDTH ∧
      (x + y * SCREEN_WIDTH) / SCREEN_WIDTH < SCREEN_HEIGHT ∧
      (x + y * SCREEN_WIDTH) % SCREEN_WIDTH ≠ x ∧
      img.get_pixel x y =
        img.get_pixel ((x + y * SCREEN_WIDTH) % SCREEN_WIDTH)
          ((x + y * SCREEN_WIDTH) / SCREEN_WIDTH)) ∧
    (∀ (img : PaperImage) (x y : ℕ),
      img.get_pixel x y = none ↔ SCREEN_HEIGHT * SCREEN_WIDTH ≤ x + y * SCREEN_WIDTH) := by
  have hW : SCREEN_WIDTH = 600 := rfl
  have hH : SCREEN_HEIGHT = 448 := rfl
  refine ⟨?_, ?_, ?_, ?_⟩
  · intro img x y h
    rw [PaperImage.get_pixel, dif_pos h]
  · intro img x y hx hy
    have h : x + y * SCREEN_WIDTH < SCREEN_HEIGHT * SCREEN_WIDTH := by
      rw [hW] at hx ⊢
      rw [hH] at hy ⊢
      omega
    rw [PaperImage.get_pixel, dif_pos h]
    rfl
  · intro img x y hx h
    have hwpos : 0 < SCREEN_WIDTH := by rw [hW]; omega
    have h1 : (x + y * SCREEN_WIDTH) % SCREEN_WIDTH < SCREEN_WIDTH :=
      Nat.mod_lt _ hwpos
    have h2 : (x + y * SCREEN_WIDTH) / SCREEN_WIDTH < SCREEN_HEIGHT := by
      rw [Nat.div_lt_iff_lt_mul hwpos]
      exact lt_of_lt_of_le h (by rw [Nat.mul_comm])
    have h3 : (x + y * SCREEN_WIDTH) % SCREEN_WIDTH ≠ x :=
      Nat.ne_of_lt (lt_of_lt_of_le h1 hx)
    refine ⟨h1, h2, h3, ?_⟩
    have hidx : (x + y * SCREEN_WIDTH) % SCREEN_WIDTH +
        (x + y * SCREEN_WIDTH) / SCREEN_WIDTH * SCREEN_WIDTH = x + y * SCREEN_WIDTH :=
      Nat.mod_add_div' _ _
    rw [PaperImage.get_pixel, PaperImage.get_pixel]
    simp only [hidx]
  · intro img x y
    by_cases h : x + y * SCREEN_WIDTH < SCREEN_HEIGHT * SCREEN_WIDTH
    · rw [PaperImage.get_pixel, dif_pos h]
      simp
      omega
    · rw [PaperImage.get_pixel, dif_neg h]
      simp
      omega

/-- Witness for C10: on an all-Black frame, (650, 0) silently aliases the
canonical coordinate (50, 1), and (0, 0) succeeds. -/
theorem paper_image_get_pixel_char_witness :
    (PaperImage.get_pixel ⟨fun _ => Color.Black⟩ 650 0 =
      PaperImage.get_pixel ⟨fun _ => Color.Black⟩
        ((650 + 0 * SCREEN_WIDTH) % SCREEN_WIDTH)
        ((650 + 0 * SCREEN_WIDTH) / SCREEN_WIDTH)) ∧
    ((650 + 0 * SCREEN_WIDTH) % SCREEN_WIDTH ≠ 650) ∧
    (PaperImage.get_pixel ⟨fun _ => Color.Black⟩ 0 0).isSome = true := by
  have hmain := paper_image_get_pixel_char
  have hc := hmain.2.2.1 ⟨fun _ => Color.Black⟩ 650 0 (by decide) (by decide)
  exact ⟨hc.2.2.2, hc.2.2.1, hmain.2.1 ⟨fun _ => Color.Black⟩ 0 0 (by decide) (by decide)⟩

theorem flatIdx_inj {w a b a2 b2 : ℕ} (h1 : a < w) (h2 : a2 < w) :
    a + b * w = a2 + b2 * w ↔ a = a2 ∧ b = b2 := by
  constructor
  · intro h
    have hw : 0 < w := lt_of_le_of_lt (Nat.zero_le a) h1
    have e1 : a = a2 := by
      have c1 : (a + b * w) % w = a := by
        rw [Nat.add_mul_mod_self_right, Nat.mod_eq_of_lt h1]
      have c2 : (a2 + b2 * w) % w = a2 := by
        rw [Nat.add_mul_mod_self_right, Nat.mod_eq_of_lt h2]
      rw [← c1, h, c2]
    have e2 : b = b2 := by
      have c1 : (a + b * w) / w = b := by
        rw [Nat.add_mul_div_right _ _ hw, Nat.div_eq_of_lt h1, Nat.zero_add]
      have c2 : (a2 + b2 * w) / w = b2 := by
        rw [Nat.add_mul_div_right _ _ hw, Nat.div_eq_of_lt h2, Nat.zero_add]
      rw [← c1, h, c2]
    exact ⟨e1, e2⟩
  · rintro ⟨rfl, rfl⟩
    rfl

theorem diffuse_error_zero (e : Rgb) : diffuse_error e 0 = 0 := by
  show Rgb.mk (e.r * 0 / 16) (e.g * 0 / 16) (e.b * 0 / 16) = Rgb.mk 0 0 0
  norm_num

theorem condAddAt_apply (c : Prop) [Decidable c] (buf : ℕ → Rgb) (k : ℕ) (v : Rgb)
    (m : ℕ) :
    (if c then addAt buf k v else buf) m = buf m + (if c ∧ m = k then v else 0) := by
  by_cases hc : c
  · rw [if_pos hc]
    by_cases hm : m = k
    · rw [if_pos ⟨hc, hm⟩, addAt, hm, Function.update_same]
    · rw [if_neg (fun hand => hm hand.2), addAt, Function.update_noteq hm, Rgb.add_zero]
  · rw [if_neg hc, if_neg (fun hand => hc hand.1), Rgb.add_zero]

theorem ditherPixel_input_char (width height x y i j : ℕ) (input : ℕ → Rgb)
    (out : ℕ → Color) (hx : x < width) (hy : y < height) (hi : i < width) :
    (ditherPixel width height x y (input, out)).1 (i + j * width) =
      input (i + j * width) +
        diffuse_error
          (input (x + y * width) - (Color.closest (input (x + y * width))).as_rgb)
          (specWeight width height x y i j) := by
  have hiff7 : ((x + 1 < width) ∧ i + j * width = x + 1 + y * width) ↔
      (i = x + 1 ∧ j = y ∧ i < width ∧ j < height) := by
    constructor
    · rintro ⟨hg, he⟩
      obtain ⟨e1, e2⟩ := (flatIdx_inj hi hg).mp he
      exact ⟨e1, e2, hi, e2 ▸ hy⟩
    · rintro ⟨e1, e2, e3, e4⟩
      exact ⟨e1 ▸ e3, by rw [e1, e2]⟩
  have hiff1 : ((x + 1 < width ∧ y + 1 < height) ∧
      i + j * width = x + 1 + (y + 1) * width) ↔
      (i = x + 1 ∧ j = y + 1 ∧ i < width ∧ j < height) := by
    constructor
    · rintro ⟨⟨hg1, hg2⟩, he⟩
      obtain ⟨e1, e2⟩ := (flatIdx_inj hi hg1).mp he
      exact ⟨e1, e2, hi, e2 ▸ hg2⟩
    · rintro ⟨e1, e2, e3, e4⟩
      exact ⟨⟨e1 ▸ e3, e2 ▸ e4⟩, by rw [e1, e2]⟩
  have hiff3 : ((x ≠ 0 ∧ y + 1 < height) ∧
      i + j * width = x - 1 + (y + 1) * width) ↔
      (i + 1 = x ∧ j = y + 1 ∧ i < width ∧ j < height) := by
    constructor
    · rintro ⟨⟨hg1, hg2⟩, he⟩
      have hx1 : x - 1 < width := by omega
      obtain ⟨e1, e2⟩ := (flatIdx_inj hi hx1).mp he
      refine ⟨by omega, e2, hi, e2 ▸ hg2⟩
    · rintro ⟨e1, e2, e3, e4⟩
      refine ⟨⟨by omega, e2 ▸ e4⟩, ?_⟩
      have hxi : x - 1 = i := by omega
      rw [hxi, e2]
  have hiff5 : ((y + 1 < height) ∧ i + j * width = x + (y + 1) * width) ↔
      (i = x ∧ j = y + 1 ∧ i < width ∧ j < height) := by
    constructor
    · rintro ⟨hg, he⟩
      obtain ⟨e1, e2⟩ := (flatIdx_inj hi hx).mp he
      exact ⟨e1, e2, hi, e2 ▸ hg⟩
    · rintro ⟨e1, e2, e3, e4⟩
      exact ⟨e2 ▸ e4, by rw [e1, e2]⟩
  dsimp only [ditherPixel]
  rw [condAddAt_apply, condAddAt_apply, condAddAt_apply, condAddAt_apply]
  simp only [hiff7, hiff1, hiff3, hiff5]
  by_cases t1 : i = x + 1 ∧ j = y ∧ i < width ∧ j < height
  · have n2 : ¬(i = x + 1 ∧ j = y + 1 ∧ i < width ∧ j < height) := by
      obtain ⟨-, e2, -, -⟩ := t1
      rintro ⟨-, f2, -, -⟩
      omega
    have n3 : ¬(i + 1 = x ∧ j = y + 1 ∧ i < width ∧ j < height) := by
      obtain ⟨-, e2, -, -⟩ := t1
      rintro ⟨-, f2, -, -⟩
      omega
    have n4 : ¬(i = x ∧ j = y + 1 ∧ i < width ∧ j < height) := by
      obtain ⟨-, e2, -, -⟩ := t1
      rintro ⟨-, f2, -, -⟩
      omega
    simp only [specWeight, if_pos t1, if_neg n2, if_neg n3, if_neg n4]
    simp [Rgb.add_zero]
  · by_cases t2 : i = x + 1 ∧ j = y + 1 ∧ i < width ∧ j < height
    · have n3 : ¬(i + 1 = x ∧ j = y + 1 ∧ i < width ∧ j < height) := by
        obtain ⟨e1, -, -, -⟩ := t2
        rintro ⟨f1, -, -, -⟩
        omega
      have n4 : ¬(i = x ∧ j = y + 1 ∧ i < width ∧ j < height) := by
        obtain ⟨e1, -, -, -⟩ := t2
        rintro ⟨f1, -, -, -⟩
        omega
      simp only [specWeight, if_neg t1, if_pos t2, if_neg n3, if_neg n4]
      simp [Rgb.add_zero]
    · by_cases t3 : i + 1 = x ∧ j = y + 1 ∧ i < width ∧ j < height
      · have n4 : ¬(i = x ∧ j = y + 1 ∧ i < width ∧ j < height) := by
          obtain ⟨f1, -, -, -⟩ := t3
          rintro ⟨g1, -, -, -⟩
          omega
        simp only [specWeight, if_neg t1, if_neg t2, if_pos t3, if_neg n4]
        simp [Rgb.add_zero]
      · by_cases t4 : i = x ∧ j = y + 1 ∧ i < width ∧ j < height
        · simp only [specWeight, if_neg t1, if_neg t2, if_neg t3, if_pos t4]
          simp [Rgb.add_zero]
        · simp only [specWeight, if_neg t1, if_neg t2, if_neg t3, if_neg t4]
          simp [Rgb.add_zero, diffuse_error_zero]

theorem foldl_nested_raster {σ : Type} (dp : ℕ → ℕ → σ → σ) (width : ℕ) :
    ∀ (l : List ℕ) (st : σ),
      l.foldl (fun st y => (List.range width).foldl (fun st x => dp x y st) st) st =
        (l.flatMap (fun y => (List.range width).map (fun x => (x, y)))).foldl
          (fun st p => dp p.1 p.2 st) st := by
  intro l
  induction l with
  | nil => intro st; rfl
  | cons a l ih =>
    intro st
    rw [List.foldl_cons, List.flatMap_cons, List.foldl_append, List.foldl_map, ih]

/-- Claim C4: the dithering pass visits pixels in raster order (it is the fold
of the per-pixel step over row-major coordinates), and one step at (x, y) adds
to each in-bounds working-buffer cell (i, j) exactly the quantization error
(old working value minus the quantized color's reference value) scaled by the
spec's weight — 7/16 right, 1/16 below-right, 3/16 below-left, 5/16 below,
0 (skipped, not wrapped, not clamped) anywhere else or out of bounds — with no
clamping of the resulting rational channel values. -/
theorem dither_raster_and_diffusion :
    (∀ (width height : ℕ) (input : ℕ → Rgb),
      ditherLoop width height input =
        (rasterOrder width height).foldl
          (fun st p => ditherPixel width height p.1 p.2 st)
          (input, fun _ => Color.Clean)) ∧
    (∀ (width height x y i j : ℕ) (input : ℕ → Rgb) (out : ℕ → Color),
      x < width → y < height → i < width →
      (ditherPixel width height x y (input, out)).1 (i + j * width) =
        input (i + j * width) +
          diffuse_error
            (input (x + y * width) - (Color.closest (input (x + y * width))).as_rgb)
            (specWeight width height x y i j)) := by
  constructor
  · intro width height input
    exact foldl_nested_raster (fun x y st => ditherPixel width height x y st) width
      (List.range height) (input, fun _ => Color.Clean)
  · intro width height x y i j input out hx hy hi
    exact ditherPixel_input_char width height x y i j input out hx hy hi

/-- Witness for C4's diffusion characterization in a 2-by-2 buffer: processing
(0,0) adds 7/16 of the error to cell (1,0). -/
theorem dither_raster_and_diffusion_witness :
    (0 : ℕ) < 2 ∧ (1 : ℕ) < 2 ∧
    (ditherPixel 2 2 0 0 (fun _ => Rgb.mk 16 16 16, fun _ => Color.Clean)).1 (1 + 0 * 2) =
      (fun _ : ℕ => Rgb.mk 16 16 16) (1 + 0 * 2) +
        diffuse_error
          ((fun _ : ℕ => Rgb.mk 16 16 16) (0 + 0 * 2) -
            (Color.closest ((fun _ : ℕ => Rgb.mk 16 16 16) (0 + 0 * 2))).as_rgb)
          (specWeight 2 2 0 0 1 0) :=
  ⟨by decide, by decide,
    dither_raster_and_diffusion.2 2 2 0 0 1 0 (fun _ => Rgb.mk 16 16 16)
      (fun _ => Color.Clean) (by decide) (by decide) (by decide)⟩

end Epaper
